import Mathlib

set_option synthInstance.maxSize 1024
set_option linter.unusedVariables false
set_option maxRecDepth 100000

/-!
Shallow embedding of `src/taming/models/vqgan.py`.

The file models, faithfully to the Python source:
* a `Tensor` type (shape + flat row-major data) with the torch operations
  used by the source (`unsqueeze(0)`, `permute`, `reshape`, `squeeze()`,
  `F.interpolate` in its default nearest mode);
* `download_pretrained_from_url` over an explicit filesystem / network model;
* `load_state_dict`, `convert_to_custom_text_state_dict`, `resize_pos_embed`;
* the `VQModel` forward-pass dataflow (`encode`, `decode`, `text_encode`,
  `text_decode`, `forward`) with the learned torch modules as abstract
  function-valued fields;
* the `Cluster` module, which is not part of the excerpt, modelled from the
  specification.
-/

/-! ### Python string helpers (modelled over `String.data : List Char`) -/

/-- `needle in hay` for `List Char` (Python `in` on strings). -/
def listContains (hay needle : List Char) : Bool :=
  match hay with
  | [] => needle.isEmpty
  | _ :: t => needle.isPrefixOf hay || listContains t needle

/-- Python `pat in s` substring test. -/
def strContains (s pat : String) : Bool :=
  listContains s.data pat.data

/-- Python `s.startswith(p)`. -/
def strStartsWith (s p : String) : Bool :=
  p.data.isPrefixOf s.data

/-- Python `s[n:]` (string slice from character `n`). -/
def strDrop (s : String) (n : Nat) : String :=
  ⟨s.data.drop n⟩

/-- Split a character list on a separator character (Python `str.split(sep)`
with a one-character separator). -/
def listSplitOn (c : Char) : List Char → List (List Char)
  | [] => [[]]
  | x :: t =>
    if x = c then [] :: listSplitOn c t
    else
      match listSplitOn c t with
      | h :: r => (x :: h) :: r
      | [] => [[x]]

/-- Python `s.split(sep)` for a one-character separator. -/
def pySplit (s : String) (c : Char) : List String :=
  (listSplitOn c s.data).map (fun l => ⟨l⟩)

/-- Python `os.path.basename` for a URL/path (everything after the last `/`). -/
def basename (p : String) : String :=
  (pySplit p '/').getLastD ""

/-- Index of the last `'.'` in a character list, if any. -/
def lastDotIdx (cs : List Char) : Option Nat :=
  ((List.range cs.length).filter (fun i => cs.getD i ' ' == '.')).getLast?

/-- Python `os.path.splitext(p)[0]` for a path with no directory part:
drop the extension starting at the last dot, unless every character before
that dot is itself a dot. -/
def splitextRoot (s : String) : String :=
  match lastDotIdx s.data with
  | none => s
  | some i =>
    if (s.data.take i).all (fun c => c == '.') then s else ⟨s.data.take i⟩

/-! ### Python dict helpers (insertion-ordered association lists) -/

/-- Python `d[k] = v`: replace in place if the key is present, else append. -/
def dictInsert {β : Type} (d : List (String × β)) (k : String) (v : β) :
    List (String × β) :=
  if d.any (fun p => p.1 == k) then
    d.map (fun p => if p.1 == k then (k, v) else p)
  else
    d ++ [(k, v)]

/-- Build a Python dict by successive `d[k] = v` assignments, in order. -/
def pyDictOfList {β : Type} (l : List (String × β)) : List (String × β) :=
  l.foldl (fun d kv => dictInsert d kv.1 kv.2) []

/-! ### Tensors: shape (row-major) + flat data -/

/-- A torch tensor: a shape and row-major flat data. -/
structure Tensor (α : Type) where
  shape : List Nat
  data : List α
deriving DecidableEq, Repr

/-- `t.size(d)` (for the in-range uses appearing in the source). -/
def Tensor.size {α : Type} (t : Tensor α) (d : Nat) : Nat :=
  t.shape.getD d 0

/-- `t.unsqueeze(0)`. -/
def Tensor.unsqueeze0 {α : Type} (t : Tensor α) : Tensor α :=
  { shape := 1 :: t.shape, data := t.data }

/-- `t.squeeze()`: drop every dimension of size 1; flat data unchanged. -/
def Tensor.squeeze {α : Type} (t : Tensor α) : Tensor α :=
  { shape := t.shape.filter (fun s => s != 1), data := t.data }

/-- Validity of a 3-element permutation of dimensions `(0, 1, 2)`. -/
def validPerm3 (p0 p1 p2 : Nat) : Bool :=
  p0 < 3 && p1 < 3 && p2 < 3 && p0 != p1 && p0 != p2 && p1 != p2

/-- `t.permute(p0, p1, p2)` on a rank-3 tensor (`none` mirrors the torch
runtime error on rank or permutation mismatch). -/
def Tensor.permute3 {α : Type} [Inhabited α] (t : Tensor α) (p0 p1 p2 : Nat) :
    Option (Tensor α) :=
  match t.shape with
  | [s0, s1, s2] =>
    if validPerm3 p0 p1 p2 then
      let s : Nat → Nat := fun d => [s0, s1, s2].getD d 0
      some { shape := [s p0, s p1, s p2]
             data := (List.range (s p0 * s p1 * s p2)).map (fun o =>
               let a := o / (s p1 * s p2)
               let b := (o / s p2) % s p1
               let c := o % s p2
               let idxAt : Nat → Nat :=
                 fun d => if p0 = d then a else if p1 = d then b else c
               t.data.getD (idxAt 0 * (s1 * s2) + idxAt 1 * s2 + idxAt 2)
                 default) }
    else none
  | _ => none

/-- `t.reshape(ns)` with explicit sizes: a view with the new shape when the
element counts agree, a torch runtime error (`none`) otherwise. -/
def Tensor.reshape {α : Type} (t : Tensor α) (ns : List Nat) :
    Option (Tensor α) :=
  if ns.prod = t.shape.prod then some { shape := ns, data := t.data } else none

/-- `t.reshape(t.size(0), t.size(1), -1)`: flatten all trailing dimensions. -/
def Tensor.reshapeFirst2Infer {α : Type} (t : Tensor α) : Option (Tensor α) :=
  match t.shape with
  | s0 :: s1 :: rest =>
    if 0 < s0 * s1 then
      some { shape := [s0, s1, rest.prod], data := t.data }
    else none
  | _ => none

/-- `F.interpolate(t, size=w)` with the default `nearest` mode on a rank-3
tensor `(n, c, l)`: output position `j` reads input position `⌊j·l/w⌋`. -/
def interpolateNearest {α : Type} [Inhabited α] (t : Tensor α) (w : Nat) :
    Option (Tensor α) :=
  match t.shape with
  | [n, c, l] =>
    if 0 < l ∧ 0 < w then
      some { shape := [n, c, w]
             data := (List.range (n * c * w)).map (fun i =>
               let a := i / (c * w)
               let b := (i / w) % c
               let j := i % w
               t.data.getD (a * (c * l) + b * l + j * l / w) default) }
    else none
  | _ => none

/-! ### Filesystem / network model for `download_pretrained_from_url` -/

/-- A filesystem node: a regular file with byte content, or a directory. -/
inductive FSNode
  | file (content : List Nat)
  | dir
deriving DecidableEq, Repr

/-- A filesystem: paths mapped to nodes; later writes shadow earlier ones. -/
abbrev FS := List (String × FSNode)

/-- Read a regular file's content (used only after an `isfile` check or a
write, as in the source). -/
def fsReadFile (fs : FS) (p : String) : List Nat :=
  match fs.lookup p with
  | some (FSNode.file c) => c
  | _ => []

/-- `os.makedirs(p, exist_ok=True)`: ok if `p` is absent (create it) or is a
directory; raises if `p` exists as a regular file. -/
def makedirs (fs : FS) (p : String) : Except String FS :=
  match fs.lookup p with
  | some FSNode.dir => Except.ok fs
  | some (FSNode.file _) => Except.error "FileExistsError"
  | none => Except.ok ((p, FSNode.dir) :: fs)

/-- The cache path `os.path.join(cache_dir, os.path.basename(url))`. -/
def downloadTarget (cache_dir url : String) : String :=
  cache_dir ++ "/" ++ basename url

/-- Hash-token derivation from the URL (lines 33–38 of the source):
an `openaipublic` URL carries the hash as the second-to-last path segment
(`none` models the `IndexError` when that segment does not exist); an
`mlfoundations` URL carries it as the last `-`-separated chunk of the
filename root; any other URL yields the empty token (no verification). -/
def expectedSha256 (url : String) : Option String :=
  if strContains url "openaipublic" then
    let parts := pySplit url '/'
    if 2 ≤ parts.length then some (parts.getD (parts.length - 2) "") else none
  else if strContains url "mlfoundations" then
    some ((pySplit (splitextRoot (basename url)) '-').getLastD "")
  else
    some ""

/-- View of `Except` as a sum, to decide equality. -/
def exceptToSum : Except String String → String ⊕ String
  | Except.error e => Sum.inl e
  | Except.ok a => Sum.inr a

instance : DecidableEq (Except String String) := fun x y =>
  decidable_of_iff (exceptToSum x = exceptToSum y)
    (by cases x <;> cases y <;> simp [exceptToSum])

/-- Outcome of one `download_pretrained_from_url` call: the returned path or
the raised error, the final filesystem, how many warnings were emitted, and
how many network downloads were performed. -/
structure DLOutcome where
  result : Except String String
  fs : FS
  warnings : Nat
  downloads : Nat
deriving DecidableEq, Repr

/-- The download block (lines 54–67): stream the URL content to the target
path, then re-read the file and raise if a derivable hash token does not
match; otherwise return the target path. -/
def doDownload (sha : List Nat → String) (net : String → List Nat)
    (url download_target expected : String) (fs : FS) (warns : Nat) :
    DLOutcome :=
  let content := net url
  let fs' : FS := (download_target, FSNode.file content) :: fs
  let written := fsReadFile fs' download_target
  if expected ≠ "" ∧ strStartsWith (sha written) expected = false then
    { result := Except.error
        "Model has been downloaded but the SHA256 checksum does not not match"
      fs := fs', warnings := warns, downloads := 1 }
  else
    { result := Except.ok download_target
      fs := fs', warnings := warns, downloads := 1 }

/-- `download_pretrained_from_url` (lines 26–67), over an abstract SHA-256
`sha` and network `net`. -/
def download_pretrained_from_url (sha : List Nat → String)
    (net : String → List Nat) (url cache_dir : String) (fs0 : FS) :
    DLOutcome :=
  match makedirs fs0 cache_dir with
  | Except.error e => { result := Except.error e, fs := fs0, warnings := 0, downloads := 0 }
  | Except.ok fs =>
    match expectedSha256 url with
    | none =>
      { result := Except.error "IndexError: list index out of range"
        fs := fs, warnings := 0, downloads := 0 }
    | some expected =>
      let download_target := downloadTarget cache_dir url
      match fs.lookup download_target with
      | some FSNode.dir =>
        { result := Except.error (download_target ++ " exists and is not a regular file")
          fs := fs, warnings := 0, downloads := 0 }
      | some (FSNode.file content) =>
        if expected ≠ "" then
          if strStartsWith (sha content) expected then
            { result := Except.ok download_target, fs := fs, warnings := 0, downloads := 0 }
          else
            doDownload sha net url download_target expected fs 1
        else
          { result := Except.ok download_target, fs := fs, warnings := 0, downloads := 0 }
      | none => doDownload sha net url download_target expected fs 0

/-! ### `load_state_dict` (lines 69–77) -/

/-- A value loaded from a checkpoint file: a (possibly nested) dict, or a
tensor-like leaf. -/
inductive PyVal (α : Type)
  | dict (entries : List (String × PyVal α))
  | tensor (v : α)

/-- Step one of `load_state_dict`: `checkpoint['state_dict']` when the
checkpoint is a dict containing that key, else the checkpoint itself. -/
def selectedStateDict {α : Type} (checkpoint : PyVal α) : PyVal α :=
  match checkpoint with
  | PyVal.dict es =>
    match es.lookup "state_dict" with
    | some v => v
    | none => checkpoint
  | PyVal.tensor _ => checkpoint

/-- `load_state_dict` after `torch.load`: pick the wrapped state dict, then
strip the first 7 characters from every key when the first key starts with
`module`.  `none` models the crash of `next(iter(state_dict.items()))` on a
non-dict or empty checkpoint. -/
def load_state_dict {α : Type} (checkpoint : PyVal α) :
    Option (List (String × PyVal α)) :=
  match selectedStateDict checkpoint with
  | PyVal.dict ((k0, v0) :: rest) =>
    if strStartsWith k0 "module" then
      some (pyDictOfList (((k0, v0) :: rest).map (fun kv => (strDrop kv.1 7, kv.2))))
    else
      some ((k0, v0) :: rest)
  | _ => none

/-! ### `convert_to_custom_text_state_dict` (lines 80–95) -/

/-- The five legacy text-tower key spaces that get namespaced under `text.`. -/
def ctPrefixMatch (k : String) : Bool :=
  ["text_projection", "positional_embedding", "token_embedding",
   "transformer", "ln_final"].any (fun p => strStartsWith k p)

/-- `convert_to_custom_text_state_dict`: identity without the sentinel key
`text_projection`; otherwise rebuild the dict, prepending `text.` to every
key matching one of the five legacy key spaces. -/
def convert_to_custom_text_state_dict {β : Type} (state_dict : List (String × β)) :
    List (String × β) :=
  if (state_dict.lookup "text_projection").isSome then
    pyDictOfList (state_dict.map (fun kv =>
      if ctPrefixMatch kv.1 then ("text." ++ kv.1, kv.2) else kv))
  else state_dict

/-! ### `resize_pos_embed` (lines 97–103) -/

/-- `resize_pos_embed(state_dict, pos_embed_width)`: take the
`positional_embedding` tensor, `unsqueeze(0).permute(0,2,1)`, 1-D
`F.interpolate` to the target width, permute back, `squeeze()`, and store the
result back under the same key.  `none` models the crash when the key is
absent (`.get` returns `None`) or a tensor op raises. -/
def resize_pos_embed {α : Type} [Inhabited α]
    (state_dict : List (String × Tensor α)) (pos_embed_width : Nat) :
    Option (List (String × Tensor α)) := do
  let pos_emb ← state_dict.lookup "positional_embedding"
  let pos_emb := pos_emb.unsqueeze0
  let pos_emb ← pos_emb.permute3 0 2 1
  let pos_emb ← interpolateNearest pos_emb pos_embed_width
  let pos_emb ← pos_emb.permute3 0 2 1
  let pos_emb := pos_emb.squeeze
  return dictInsert state_dict "positional_embedding" pos_emb

/-! ### `VQModel` forward dataflow (lines 106–228)

The learned torch modules (`Encoder`, `Decoder`, `Text_Decoder`,
`TextTransformer`, `VectorQuantizer`, the projection/transformer layers and
the cluster) live outside the excerpt; they are abstract function-valued
fields here.  The tensor plumbing (`reshape`, `permute`) between them is the
concrete plumbing of the source.  `ι` is the type of the quantizer's index
metadata. -/

/-- The `VQModel` module, with each learned sub-module as an abstract field
named as in `__init__`. -/
structure VQModel (α ι : Type) where
  encoder : Tensor α → Tensor α
  quant_conv : Tensor α → Tensor α
  quantize : Tensor α → String → Tensor α × α × ι
  post_quant_conv : Tensor α → Tensor α
  decoder : Tensor α → Tensor α × Tensor α
  text_decoder : Tensor α → Tensor α
  text_encoder : Tensor α → Tensor α → Tensor α × Tensor α
  quant_linear : Tensor α → Tensor α
  quant_tf : Tensor α → Tensor α → Tensor α
  post_quant_tf : Tensor α → Tensor α
  i_t_cluster : Tensor α → Tensor α → Tensor α → Tensor α →
    Tensor α × Tensor α × α × α

/-- `VQModel.encode` (lines 177–181). -/
def VQModel.encode {α ι : Type} (m : VQModel α ι) (x : Tensor α) :
    Tensor α × α × ι × Tensor α :=
  let h := m.encoder x
  let image_hidden := m.quant_conv h
  let (image_quant, image_quant_loss, info) := m.quantize image_hidden "image"
  (image_quant, image_quant_loss, info, image_hidden)

/-- `VQModel.decode` (lines 183–189): decode a co-quantized image tensor to
the image reconstruction and, from the decoder's hidden side output, the
image-to-text reconstruction. -/
def VQModel.decode {α ι : Type} (m : VQModel α ι) (image_coquant : Tensor α) :
    Tensor α × Tensor α :=
  let image_coquant := m.post_quant_conv image_coquant
  let (i2i_rec, image_hidden) := m.decoder image_coquant
  let i2t_rec := m.text_decoder image_hidden
  (i2i_rec, i2t_rec)

/-- `VQModel.text_encode` (lines 197–204). -/
def VQModel.text_encode {α ι : Type} [Inhabited α] (m : VQModel α ι)
    (text valid_lens image_hidden : Tensor α) :
    Option (Tensor α × α × ι × Tensor α × Tensor α) := do
  let ih ← image_hidden.reshapeFirst2Infer
  let ih ← ih.permute3 2 0 1
  let (t, mask) := m.text_encoder text valid_lens
  let t ← (m.quant_linear t).permute3 1 0 2
  let t ← (m.quant_tf ih t).permute3 1 0 2
  let (text_quant, text_quant_loss, codebook_indices) := m.quantize t "text"
  return (text_quant, text_quant_loss, codebook_indices, t, mask)

/-- `VQModel.text_decode` (lines 206–218): self-attend the quantized text,
reshape `(b, d, l)` to the fixed `(b, d, 16, 16)` grid, then decode to the
text-to-image and (via the decoder's hidden output) text-to-text
reconstructions. -/
def VQModel.text_decode {α ι : Type} [Inhabited α] (m : VQModel α ι)
    (text_quant valid_lens : Tensor α) : Option (Tensor α × Tensor α) := do
  let tq ← text_quant.permute3 1 0 2
  let tq := m.post_quant_tf tq
  let tq ← tq.permute3 1 2 0
  let b := tq.size 0
  let d := tq.size 1
  let tq ← tq.reshape [b, d, 16, 16]
  let (t2i_rec, text_hidden) := m.decoder tq
  let t2t_rec := m.text_decoder text_hidden
  return (t2t_rec, t2i_rec)

/-- `VQModel.forward` (lines 220–228). -/
def VQModel.forward {α ι : Type} [Inhabited α] (m : VQModel α ι)
    (image text valid_lens : Tensor α) :
    Option (Tensor α × Tensor α × α × Tensor α × Tensor α × α × α × α) := do
  let (image_quant, image_quant_loss, _info, image_hidden) := m.encode image
  let (text_quant, text_quant_loss, _tci, _text_hidden, mask) ←
    m.text_encode text valid_lens image_hidden
  let (image_coquant, _text_coquant, i_coquant_loss, t_coquant_loss) :=
    m.i_t_cluster image_quant text_quant mask valid_lens
  let (i2i_rec, i2t_rec) := m.decode image_coquant
  let (t2t_rec, t2i_rec) ← m.text_decode text_quant valid_lens
  return (i2i_rec, i2t_rec, image_quant_loss, t2t_rec, t2i_rec,
    text_quant_loss, i_coquant_loss, t_coquant_loss)

/-! ### The Cross-Modal Cluster, modelled from the spec -/

/-- Modelled from the spec: `Cluster` (imported from
`taming.modules.vqvae.quantize`, constructed as `Cluster(embed_dim)` and
invoked as `self.i_t_cluster(image_quant, text_quant, mask, valid_lens)`) is
not part of the excerpt under `src/`.  Spec §4.5: it must mix the
image-quantized grid and the text-quantized sequence, "informed by the text
attention mask and valid lengths (to avoid mixing in padding positions)",
with "no contribution from non-valid text positions"; the exact mixing
strategy is an implementation choice.  This step zeroes every text position
at or beyond its example's valid length; the mask argument carries the same
padding information and the mixing below consumes only the masked tensor. -/
def maskedTextData (text_quant : Tensor ℚ) (valid_lens : List Nat) : Tensor ℚ :=
  match text_quant.shape with
  | [b, l, e] =>
    { shape := [b, l, e]
      data := (List.range (b * l * e)).map (fun m =>
        if (m / e) % l < valid_lens.getD (m / (l * e)) 0 then
          text_quant.data.getD m 0
        else 0) }
  | _ => text_quant

/-- Modelled from the spec: the mixing core of `Cluster`, a function of the
image-quantized tensor, the already-masked text tensor and the attention
mask only.  It returns the image-shaped co-quantized tensor, the text-shaped
co-quantized tensor and the two scalar mixture losses of spec §4.5. -/
def clusterCore (image_quant tmasked mask : Tensor ℚ) :
    Tensor ℚ × Tensor ℚ × ℚ × ℚ :=
  let tSum := tmasked.data.sum
  let iSum := image_quant.data.sum
  let image_coquant : Tensor ℚ :=
    { shape := image_quant.shape
      data := image_quant.data.map (fun v => (v + tSum) / 2) }
  let text_coquant : Tensor ℚ :=
    { shape := tmasked.shape
      data := tmasked.data.map (fun v => (v + iSum) / 2) }
  let i_loss := (image_coquant.data.zip image_quant.data).foldl
    (fun s p => s + (p.1 - p.2) ^ 2) 0 + mask.data.sum * 0
  let t_loss := (text_coquant.data.zip tmasked.data).foldl
    (fun s p => s + (p.1 - p.2) ^ 2) 0
  (image_coquant, text_coquant, i_loss, t_loss)

/-- Modelled from the spec: `Cluster.forward(image_quant, text_quant, mask,
valid_lens)` — mask the text tensor to its valid positions, then mix. -/
def Cluster.forward (image_quant text_quant mask : Tensor ℚ)
    (valid_lens : List Nat) : Tensor ℚ × Tensor ℚ × ℚ × ℚ :=
  clusterCore image_quant (maskedTextData text_quant valid_lens) mask

/-! ### Concrete instances used to witness the theorems -/

/-- A fixed `(256, 1, 1)` tensor of zeros (a concrete stand-in for the
output of the `quant_tf` transformer block). -/
def t256 : Tensor Nat :=
  { shape := [256, 1, 1], data := List.replicate 256 0 }

/-- A `(1, 1, 1)` tensor. -/
def t111 : Tensor Nat :=
  { shape := [1, 1, 1], data := [0] }

/-- A concrete `VQModel` instance: every learned module is a simple total
function of the right arity. -/
def mWitness : VQModel Nat Nat where
  encoder := id
  quant_conv := id
  quantize := fun t _ => (t, 0, 0)
  post_quant_conv := id
  decoder := fun t => (t, t)
  text_decoder := id
  text_encoder := fun t _ => (t, t)
  quant_linear := id
  quant_tf := fun _ _ => t256
  post_quant_tf := id
  i_t_cluster := fun a b _ _ => (a, b, 0, 0)

/-! ## Helper lemmas -/

theorem validPerm3_021 : validPerm3 0 2 1 = true := by decide

theorem validPerm3_201 : validPerm3 2 0 1 = true := by decide

theorem validPerm3_102 : validPerm3 1 0 2 = true := by decide

theorem validPerm3_120 : validPerm3 1 2 0 = true := by decide

theorem getD_range_map {α : Type} (f : Nat → α) (n i : Nat) (d : α)
    (h : i < n) : ((List.range n).map f).getD i d = f i := by
  rw [List.getD_eq_getElem?_getD, List.getElem?_map, List.getElem?_range h]
  rfl

theorem permute3_102_shape {α : Type} [Inhabited α] (t : Tensor α)
    (s0 s1 s2 : Nat) (h : t.shape = [s0, s1, s2]) :
    ∃ u, t.permute3 1 0 2 = some u ∧ u.shape = [s1, s0, s2] ∧
      u.data.length = s1 * s0 * s2 := by
  obtain ⟨sh, dat⟩ := t
  obtain rfl : sh = [s0, s1, s2] := h
  exact ⟨_, rfl, rfl, by simp⟩

theorem permute3_120_shape {α : Type} [Inhabited α] (t : Tensor α)
    (s0 s1 s2 : Nat) (h : t.shape = [s0, s1, s2]) :
    ∃ u, t.permute3 1 2 0 = some u ∧ u.shape = [s1, s2, s0] ∧
      u.data.length = s1 * s2 * s0 := by
  obtain ⟨sh, dat⟩ := t
  obtain rfl : sh = [s0, s1, s2] := h
  exact ⟨_, rfl, rfl, by simp⟩

/-! ## C10 -/

/-- C10: `VQModel.text_decode` is defined exactly on text-quantized inputs
whose sequence dimension is 256 (so that the `(b, d, l)` tensor reshapes to
the fixed `(b, d, 16, 16)` grid): for a rank-3 input `(b, l, d)` with
`b, d ≥ 1` and a shape-preserving `post_quant_tf`, the reshape — and hence
the whole of `text_decode` — succeeds iff `l = 256`. -/
theorem text_decode_defined_iff_len256 {α ι : Type} [Inhabited α]
    (m : VQModel α ι) (tq vl : Tensor α) (b l d : Nat)
    (hsh : tq.shape = [b, l, d]) (hb : 1 ≤ b) (hd : 1 ≤ d)
    (hpq : ∀ t : Tensor α, (m.post_quant_tf t).shape = t.shape) :
    (m.text_decode tq vl).isSome = true ↔ l = 256 := by
  obtain ⟨u1, hu1, hu1s, -⟩ := permute3_102_shape tq b l d hsh
  have h2 : (m.post_quant_tf u1).shape = [l, b, d] := (hpq u1).trans hu1s
  obtain ⟨u2, hu2, hu2s, -⟩ := permute3_120_shape (m.post_quant_tf u1) l b d h2
  have hs0 : u2.size 0 = b := by simp [Tensor.size, hu2s]
  have hs1 : u2.size 1 = d := by simp [Tensor.size, hu2s]
  have hkey : m.text_decode tq vl = (u2.reshape [b, d, 16, 16]).bind
      (fun t2 => some (m.text_decoder (m.decoder t2).2, (m.decoder t2).1)) := by
    simp only [VQModel.text_decode, Option.bind_eq_bind, Option.pure_def,
      hu1, Option.some_bind, hu2, hs0, hs1]
  rw [hkey]
  constructor
  · intro hsome
    rcases ho : u2.reshape [b, d, 16, 16] with _ | t2
    · rw [ho] at hsome
      simp at hsome
    · have hre := ho
      rw [Tensor.reshape, hu2s] at hre
      by_cases hc : ([b, d, 16, 16] : List Nat).prod = ([b, d, l] : List Nat).prod
      · simp only [List.prod_cons, List.prod_nil] at hc
        have h3 := Nat.eq_of_mul_eq_mul_left (show 0 < b by omega) hc
        have h4 := Nat.eq_of_mul_eq_mul_left (show 0 < d by omega) h3
        omega
      · rw [if_neg hc] at hre
        cases hre
  · intro hl
    subst hl
    have hc : ([b, d, 16, 16] : List Nat).prod = u2.shape.prod := by
      rw [hu2s]
      simp
    rw [Tensor.reshape, if_pos hc]
    rfl

/-- Witness for C10: a `(1, 256, 1)` input makes `text_decode` succeed. -/
theorem text_decode_defined_iff_len256_witness :
    ((mWitness.text_decode (Tensor.mk [1, 256, 1] (List.replicate 256 0))
      t111).isSome = true ↔ (256 : Nat) = 256) :=
  text_decode_defined_iff_len256 mWitness
    (Tensor.mk [1, 256, 1] (List.replicate 256 0)) t111 1 256 1 rfl
    (by decide) (by decide) (fun _ => rfl)

/-! ## C1 -/

/-- C1: whenever `VQModel.forward` returns, it returns exactly the eight
outputs `(i2i_rec, i2t_rec, image_quant_loss, t2t_rec, t2i_rec,
text_quant_loss, i_coquant_loss, t_coquant_loss)`; all four reconstruction
branches are computed, the image decode branch consumes the co-quantized
image tensor (first output of `i_t_cluster`), and the text decode branch
consumes the plain quantized text tensor (first output of `text_encode`,
not the co-quantized one). -/
theorem vq_forward_eight_outputs {α ι : Type} [Inhabited α]
    (m : VQModel α ι) (image text valid_lens : Tensor α)
    (out : Tensor α × Tensor α × α × Tensor α × Tensor α × α × α × α)
    (h : m.forward image text valid_lens = some out) :
    ∃ te td,
      m.text_encode text valid_lens (m.encode image).2.2.2 = some te ∧
      m.text_decode te.1 valid_lens = some td ∧
      out =
        ((m.decode (m.i_t_cluster (m.encode image).1 te.1 te.2.2.2.2 valid_lens).1).1,
         (m.decode (m.i_t_cluster (m.encode image).1 te.1 te.2.2.2.2 valid_lens).1).2,
         (m.encode image).2.1,
         td.1, td.2,
         te.2.1,
         (m.i_t_cluster (m.encode image).1 te.1 te.2.2.2.2 valid_lens).2.2.1,
         (m.i_t_cluster (m.encode image).1 te.1 te.2.2.2.2 valid_lens).2.2.2) := by
  rcases he : m.encode image with ⟨iq, iql, info, ih⟩
  rcases hte : m.text_encode text valid_lens ih with _ | te
  · simp only [VQModel.forward, he, hte, Option.bind_eq_bind, Option.none_bind] at h
    cases h
  · rcases te with ⟨tq, tql, tci, th, mask⟩
    rcases hcl : m.i_t_cluster iq tq mask valid_lens with ⟨icq, tcq, il, tl⟩
    rcases hdec : m.decode icq with ⟨i2i, i2t⟩
    rcases htd : m.text_decode tq valid_lens with _ | td
    · simp only [VQModel.forward, he, hte, hcl, hdec, htd, Option.bind_eq_bind,
        Option.some_bind, Option.none_bind] at h
      cases h
    · rcases td with ⟨t2t, t2i⟩
      simp only [VQModel.forward, he, hte, hcl, hdec, htd, Option.bind_eq_bind,
        Option.some_bind, Option.pure_def, Option.some.injEq] at h
      refine ⟨(tq, tql, tci, th, mask), (t2t, t2i), rfl, htd, ?_⟩
      simpa [hcl, hdec] using h.symm

/-- Witness for C1: a concrete model and batch on which `forward` returns. -/
theorem vq_forward_eight_outputs_witness :
    ∃ te td,
      mWitness.text_encode t111 t111 (mWitness.encode t111).2.2.2 = some te ∧
      mWitness.text_decode te.1 t111 = some td ∧
      ((t111, t111, 0, Tensor.mk [1, 1, 16, 16] (List.replicate 256 0),
        Tensor.mk [1, 1, 16, 16] (List.replicate 256 0), 0, 0, 0) :
        Tensor Nat × Tensor Nat × Nat × Tensor Nat × Tensor Nat × Nat × Nat × Nat) =
        ((mWitness.decode (mWitness.i_t_cluster (mWitness.encode t111).1 te.1
            te.2.2.2.2 t111).1).1,
         (mWitness.decode (mWitness.i_t_cluster (mWitness.encode t111).1 te.1
            te.2.2.2.2 t111).1).2,
         (mWitness.encode t111).2.1,
         td.1, td.2,
         te.2.1,
         (mWitness.i_t_cluster (mWitness.encode t111).1 te.1 te.2.2.2.2 t111).2.2.1,
         (mWitness.i_t_cluster (mWitness.encode t111).1 te.1 te.2.2.2.2 t111).2.2.2) :=
  vq_forward_eight_outputs mWitness t111 t111 t111
    (t111, t111, 0, Tensor.mk [1, 1, 16, 16] (List.replicate 256 0),
      Tensor.mk [1, 1, 16, 16] (List.replicate 256 0), 0, 0, 0) (by decide)

/-! ## C9 -/

/-- C9 (spec-modelled Cluster): two text batches that agree on the image
quantized tensor, the attention mask, the valid lengths, and every token
position within each example's valid length — but may differ arbitrarily in
the padding region — produce identical co-quantized image and text outputs
and identical mixture losses. -/
theorem cluster_masking_invariant (image_quant mask t1 t2 : Tensor ℚ)
    (valid_lens : List Nat) (b l e : Nat)
    (hs1 : t1.shape = [b, l, e]) (hs2 : t2.shape = [b, l, e])
    (hagree : ∀ p, p < b * l * e →
      (p / e) % l < valid_lens.getD (p / (l * e)) 0 →
      t1.data.getD p 0 = t2.data.getD p 0) :
    Cluster.forward image_quant t1 mask valid_lens =
      Cluster.forward image_quant t2 mask valid_lens := by
  have hmask : maskedTextData t1 valid_lens = maskedTextData t2 valid_lens := by
    rw [maskedTextData, maskedTextData, hs1, hs2]
    refine congrArg (Tensor.mk [b, l, e]) (List.map_congr_left ?_)
    intro p hp
    rw [List.mem_range] at hp
    by_cases hc : (p / e) % l < valid_lens.getD (p / (l * e)) 0
    · rw [if_pos hc, if_pos hc, hagree p hp hc]
    · rw [if_neg hc, if_neg hc]
  rw [Cluster.forward, Cluster.forward, hmask]

/-- Witness for C9: texts differing only at a position at or beyond the
valid length yield identical cluster outputs. -/
theorem cluster_masking_invariant_witness :
    Cluster.forward (Tensor.mk [1, 1, 1] [(5 : ℚ)])
      (Tensor.mk [1, 2, 1] [3, 7]) (Tensor.mk [1, 2] [1, 0]) [1] =
    Cluster.forward (Tensor.mk [1, 1, 1] [(5 : ℚ)])
      (Tensor.mk [1, 2, 1] [3, 9]) (Tensor.mk [1, 2] [1, 0]) [1] :=
  cluster_masking_invariant (Tensor.mk [1, 1, 1] [(5 : ℚ)])
    (Tensor.mk [1, 2] [1, 0]) (Tensor.mk [1, 2, 1] [3, 7])
    (Tensor.mk [1, 2, 1] [3, 9]) [1] 1 2 1 rfl rfl (by decide)

/-! ## Download helper lemmas -/

theorem lookup_cons_self {β : Type} (k : String) (v : β)
    (l : List (String × β)) : ((k, v) :: l).lookup k = some v := by
  simp [List.lookup]

theorem lookup_cons_ne {β : Type} (k a : String) (v : β)
    (l : List (String × β)) (h : k ≠ a) :
    ((k, v) :: l).lookup a = l.lookup a := by
  have hb : (a == k) = false := beq_eq_false_iff_ne.mpr (Ne.symm h)
  simp [List.lookup, hb]

theorem fsRead_write_self (p : String) (c : List Nat) (fs : FS) :
    fsReadFile ((p, FSNode.file c) :: fs) p = c := by
  simp [fsReadFile, lookup_cons_self]

theorem downloadTarget_ne (cache_dir url : String) :
    downloadTarget cache_dir url ≠ cache_dir := by
  intro h
  have hl := congrArg String.length h
  rw [downloadTarget] at hl
  simp only [String.length_append] at hl
  have h1 : "/".length = 1 := rfl
  omega

theorem makedirs_ok (fs : FS) (p : String)
    (h : fs.lookup p = none ∨ fs.lookup p = some FSNode.dir) :
    ∃ fs1, makedirs fs p = Except.ok fs1 ∧
      fs1.lookup p = some FSNode.dir ∧
      ∀ q, q ≠ p → fs1.lookup q = fs.lookup q := by
  rcases h with h | h
  · refine ⟨(p, FSNode.dir) :: fs, ?_, ?_, ?_⟩
    · simp [makedirs, h]
    · exact lookup_cons_self p FSNode.dir fs
    · intro q hq
      exact lookup_cons_ne p q FSNode.dir fs (Ne.symm hq)
  · exact ⟨fs, by simp [makedirs, h], h, fun q _ => rfl⟩

/-! ## C2 -/

/-- C2: starting from a cache with no file at the target path, a successful
call of `download_pretrained_from_url` performs exactly one network
download, and a second call with the same URL and cache directory returns
the same path with zero downloads and an unchanged filesystem
(short-circuiting via the hash check when a hash token is derivable). -/
theorem download_idempotent (sha : List Nat → String)
    (net : String → List Nat) (url cache_dir : String) (fs0 : FS) (p : String)
    (hcd : fs0.lookup cache_dir = none ∨ fs0.lookup cache_dir = some FSNode.dir)
    (hfresh : fs0.lookup (downloadTarget cache_dir url) = none)
    (hok : (download_pretrained_from_url sha net url cache_dir fs0).result =
      Except.ok p) :
    (download_pretrained_from_url sha net url cache_dir fs0).downloads = 1 ∧
    (download_pretrained_from_url sha net url cache_dir
      (download_pretrained_from_url sha net url cache_dir fs0).fs).result =
      Except.ok p ∧
    (download_pretrained_from_url sha net url cache_dir
      (download_pretrained_from_url sha net url cache_dir fs0).fs).downloads = 0 ∧
    (download_pretrained_from_url sha net url cache_dir
      (download_pretrained_from_url sha net url cache_dir fs0).fs).fs =
      (download_pretrained_from_url sha net url cache_dir fs0).fs := by
  obtain ⟨fs1, hmk, hcd1, hpres⟩ := makedirs_ok fs0 cache_dir hcd
  have htgt : fs1.lookup (downloadTarget cache_dir url) = none := by
    rw [hpres _ (downloadTarget_ne cache_dir url)]
    exact hfresh
  cases hexp : expectedSha256 url with
  | none =>
    rw [show (download_pretrained_from_url sha net url cache_dir fs0).result =
        Except.error "IndexError: list index out of range" by
      simp only [download_pretrained_from_url, hmk, hexp]] at hok
    cases hok
  | some expected =>
    have h1 : download_pretrained_from_url sha net url cache_dir fs0 =
        doDownload sha net url (downloadTarget cache_dir url) expected fs1 0 := by
      simp only [download_pretrained_from_url, hmk, hexp, htgt]
    have h2 : doDownload sha net url (downloadTarget cache_dir url) expected fs1 0 =
        if expected ≠ "" ∧ strStartsWith (sha (net url)) expected = false then
          { result := Except.error
              "Model has been downloaded but the SHA256 checksum does not not match"
            fs := (downloadTarget cache_dir url, FSNode.file (net url)) :: fs1
            warnings := 0, downloads := 1 }
        else
          { result := Except.ok (downloadTarget cache_dir url)
            fs := (downloadTarget cache_dir url, FSNode.file (net url)) :: fs1
            warnings := 0, downloads := 1 } := by
      simp only [doDownload, fsRead_write_self]
    by_cases hv : expected ≠ "" ∧ strStartsWith (sha (net url)) expected = false
    · rw [h1, h2, if_pos hv] at hok
      cases hok
    · have hfirst : download_pretrained_from_url sha net url cache_dir fs0 =
          { result := Except.ok (downloadTarget cache_dir url)
            fs := (downloadTarget cache_dir url, FSNode.file (net url)) :: fs1
            warnings := 0, downloads := 1 } := by
        rw [h1, h2, if_neg hv]
      have hp : p = downloadTarget cache_dir url := by
        rw [hfirst] at hok
        cases hok
        rfl
      have hmk2 : makedirs
          ((downloadTarget cache_dir url, FSNode.file (net url)) :: fs1) cache_dir =
          Except.ok ((downloadTarget cache_dir url, FSNode.file (net url)) :: fs1) := by
        simp only [makedirs,
          lookup_cons_ne _ _ _ _ (downloadTarget_ne cache_dir url), hcd1]
      have hlk2 : ((downloadTarget cache_dir url, FSNode.file (net url)) :: fs1).lookup
          (downloadTarget cache_dir url) = some (FSNode.file (net url)) :=
        lookup_cons_self _ _ _
      have hsecond : download_pretrained_from_url sha net url cache_dir
          ((downloadTarget cache_dir url, FSNode.file (net url)) :: fs1) =
          { result := Except.ok (downloadTarget cache_dir url)
            fs := (downloadTarget cache_dir url, FSNode.file (net url)) :: fs1
            warnings := 0, downloads := 0 } := by
        simp only [download_pretrained_from_url, hmk2, hexp, hlk2]
        by_cases he : expected = ""
        · rw [if_neg (by simp [he])]
        · have hsw : strStartsWith (sha (net url)) expected = true := by
            cases hb : strStartsWith (sha (net url)) expected
            · exact absurd ⟨he, hb⟩ hv
            · rfl
          rw [if_pos he, if_pos hsw]
      refine ⟨by rw [hfirst], ?_, ?_, ?_⟩ <;> rw [hfirst, hsecond]
      rw [hp]

/-- Witness for C2: a fresh cache, an unknown-publisher URL. -/
theorem download_idempotent_witness :
    (download_pretrained_from_url (fun _ => "") (fun _ => [1])
        "http://host/m.pt" "c" []).downloads = 1 ∧
    (download_pretrained_from_url (fun _ => "") (fun _ => [1]) "http://host/m.pt"
        "c" (download_pretrained_from_url (fun _ => "") (fun _ => [1])
          "http://host/m.pt" "c" []).fs).result = Except.ok "c/m.pt" ∧
    (download_pretrained_from_url (fun _ => "") (fun _ => [1]) "http://host/m.pt"
        "c" (download_pretrained_from_url (fun _ => "") (fun _ => [1])
          "http://host/m.pt" "c" []).fs).downloads = 0 ∧
    (download_pretrained_from_url (fun _ => "") (fun _ => [1]) "http://host/m.pt"
        "c" (download_pretrained_from_url (fun _ => "") (fun _ => [1])
          "http://host/m.pt" "c" []).fs).fs =
      (download_pretrained_from_url (fun _ => "") (fun _ => [1])
        "http://host/m.pt" "c" []).fs :=
  download_idempotent (fun _ => "") (fun _ => [1]) "http://host/m.pt" "c" []
    "c/m.pt" (Or.inl rfl) rfl (by decide)

/-! ## C3 -/

/-- C3: when a hash token is derivable from the URL and the file is freshly
downloaded, a mismatch between the downloaded content's hash and the token
makes the call raise (return an error) rather than return the path. -/
theorem download_fresh_mismatch_raises (sha : List Nat → String)
    (net : String → List Nat) (url cache_dir : String) (fs0 : FS) (e : String)
    (hcd : fs0.lookup cache_dir = none ∨ fs0.lookup cache_dir = some FSNode.dir)
    (hfresh : fs0.lookup (downloadTarget cache_dir url) = none)
    (hexp : expectedSha256 url = some e) (hne : e ≠ "")
    (hmm : strStartsWith (sha (net url)) e = false) :
    (download_pretrained_from_url sha net url cache_dir fs0).result =
      Except.error
        "Model has been downloaded but the SHA256 checksum does not not match" ∧
    (download_pretrained_from_url sha net url cache_dir fs0).downloads = 1 := by
  obtain ⟨fs1, hmk, hcd1, hpres⟩ := makedirs_ok fs0 cache_dir hcd
  have htgt : fs1.lookup (downloadTarget cache_dir url) = none := by
    rw [hpres _ (downloadTarget_ne cache_dir url)]
    exact hfresh
  have h1 : download_pretrained_from_url sha net url cache_dir fs0 =
      doDownload sha net url (downloadTarget cache_dir url) e fs1 0 := by
    simp only [download_pretrained_from_url, hmk, hexp, htgt]
  rw [h1]
  simp only [doDownload, fsRead_write_self]
  rw [if_pos ⟨hne, hmm⟩]
  exact ⟨rfl, rfl⟩

/-- Witness for C3: an `openaipublic` URL whose path-segment token does not
match the downloaded content's hash. -/
theorem download_fresh_mismatch_raises_witness :
    (download_pretrained_from_url (fun _ => "x") (fun _ => [1])
      "https://openaipublic/abc/m.pt" "c" []).result =
      Except.error
        "Model has been downloaded but the SHA256 checksum does not not match" ∧
    (download_pretrained_from_url (fun _ => "x") (fun _ => [1])
      "https://openaipublic/abc/m.pt" "c" []).downloads = 1 :=
  download_fresh_mismatch_raises (fun _ => "x") (fun _ => [1])
    "https://openaipublic/abc/m.pt" "c" [] "abc" (Or.inl rfl) rfl (by decide)
    (by decide) (by decide)

/-! ## C4 -/

/-- C4: when the target already exists as a regular file — if a hash token
is derivable and the file's hash does not match it, the call warns once and
re-downloads (and returns the path when the fresh content's hash matches);
if no hash token is derivable, the existing file's path is returned
immediately with no download and no warning. -/
theorem download_existing_file_policy (sha : List Nat → String)
    (net : String → List Nat) (url cache_dir : String) (fs0 : FS)
    (c : List Nat)
    (hcd : fs0.lookup cache_dir = none ∨ fs0.lookup cache_dir = some FSNode.dir)
    (hex : fs0.lookup (downloadTarget cache_dir url) = some (FSNode.file c)) :
    (∀ e, expectedSha256 url = some e → e ≠ "" →
      strStartsWith (sha c) e = false →
      (download_pretrained_from_url sha net url cache_dir fs0).warnings = 1 ∧
      (download_pretrained_from_url sha net url cache_dir fs0).downloads = 1 ∧
      (strStartsWith (sha (net url)) e = true →
        (download_pretrained_from_url sha net url cache_dir fs0).result =
          Except.ok (downloadTarget cache_dir url))) ∧
    (expectedSha256 url = some "" →
      (download_pretrained_from_url sha net url cache_dir fs0).result =
        Except.ok (downloadTarget cache_dir url) ∧
      (download_pretrained_from_url sha net url cache_dir fs0).downloads = 0 ∧
      (download_pretrained_from_url sha net url cache_dir fs0).warnings = 0) := by
  obtain ⟨fs1, hmk, hcd1, hpres⟩ := makedirs_ok fs0 cache_dir hcd
  have htgt : fs1.lookup (downloadTarget cache_dir url) = some (FSNode.file c) := by
    rw [hpres _ (downloadTarget_ne cache_dir url)]
    exact hex
  constructor
  · intro e hexp hne hmmc
    have h1 : download_pretrained_from_url sha net url cache_dir fs0 =
        doDownload sha net url (downloadTarget cache_dir url) e fs1 1 := by
      simp only [download_pretrained_from_url, hmk, hexp, htgt]
      rw [if_pos hne, if_neg (by rw [hmmc]; decide)]
    rw [h1]
    simp only [doDownload, fsRead_write_self]
    by_cases hv : e ≠ "" ∧ strStartsWith (sha (net url)) e = false
    · rw [if_pos hv]
      exact ⟨rfl, rfl, fun hw => absurd (hv.2.symm.trans hw) (by decide)⟩
    · rw [if_neg hv]
      exact ⟨rfl, rfl, fun _ => rfl⟩
  · intro hexp
    have h1 : download_pretrained_from_url sha net url cache_dir fs0 =
        { result := Except.ok (downloadTarget cache_dir url)
          fs := fs1, warnings := 0, downloads := 0 } := by
      simp only [download_pretrained_from_url, hmk, hexp, htgt]
      rw [if_neg (by simp)]
    rw [h1]
    exact ⟨rfl, rfl, rfl⟩

/-- Witness for C4: a pre-existing cached file for an unknown-publisher URL
is returned with no verification. -/
theorem download_existing_file_policy_witness :
    (∀ e, expectedSha256 "http://host/m.pt" = some e → e ≠ "" →
      strStartsWith ((fun _ => "x") [(7 : Nat)]) e = false →
      (download_pretrained_from_url (fun _ => "x") (fun _ => [1])
        "http://host/m.pt" "c" [("c/m.pt", FSNode.file [7])]).warnings = 1 ∧
      (download_pretrained_from_url (fun _ => "x") (fun _ => [1])
        "http://host/m.pt" "c" [("c/m.pt", FSNode.file [7])]).downloads = 1 ∧
      (strStartsWith ((fun _ => "x") ((fun _ => [1]) "http://host/m.pt")) e = true →
        (download_pretrained_from_url (fun _ => "x") (fun _ => [1])
          "http://host/m.pt" "c" [("c/m.pt", FSNode.file [7])]).result =
          Except.ok (downloadTarget "c" "http://host/m.pt"))) ∧
    (expectedSha256 "http://host/m.pt" = some "" →
      (download_pretrained_from_url (fun _ => "x") (fun _ => [1])
        "http://host/m.pt" "c" [("c/m.pt", FSNode.file [7])]).result =
        Except.ok (downloadTarget "c" "http://host/m.pt") ∧
      (download_pretrained_from_url (fun _ => "x") (fun _ => [1])
        "http://host/m.pt" "c" [("c/m.pt", FSNode.file [7])]).downloads = 0 ∧
      (download_pretrained_from_url (fun _ => "x") (fun _ => [1])
        "http://host/m.pt" "c" [("c/m.pt", FSNode.file [7])]).warnings = 0) :=
  download_existing_file_policy (fun _ => "x") (fun _ => [1]) "http://host/m.pt"
    "c" [("c/m.pt", FSNode.file [7])] [7] (Or.inl (by decide)) (by decide)

/-! ## C5 -/

/-- C5: when the computed target path exists but is not a regular file, the
call raises (returns an error) before attempting any download. -/
theorem download_target_not_regular_file (sha : List Nat → String)
    (net : String → List Nat) (url cache_dir : String) (fs0 : FS)
    (hcd : fs0.lookup cache_dir = none ∨ fs0.lookup cache_dir = some FSNode.dir)
    (hex : fs0.lookup (downloadTarget cache_dir url) = some FSNode.dir) :
    (∃ msg, (download_pretrained_from_url sha net url cache_dir fs0).result =
      Except.error msg) ∧
    (download_pretrained_from_url sha net url cache_dir fs0).downloads = 0 := by
  obtain ⟨fs1, hmk, hcd1, hpres⟩ := makedirs_ok fs0 cache_dir hcd
  have htgt : fs1.lookup (downloadTarget cache_dir url) = some FSNode.dir := by
    rw [hpres _ (downloadTarget_ne cache_dir url)]
    exact hex
  cases hexp : expectedSha256 url with
  | none =>
    have h1 : download_pretrained_from_url sha net url cache_dir fs0 =
        { result := Except.error "IndexError: list index out of range"
          fs := fs1, warnings := 0, downloads := 0 } := by
      simp only [download_pretrained_from_url, hmk, hexp]
    rw [h1]
    exact ⟨⟨_, rfl⟩, rfl⟩
  | some expected =>
    have h1 : download_pretrained_from_url sha net url cache_dir fs0 =
        { result := Except.error
            (downloadTarget cache_dir url ++ " exists and is not a regular file")
          fs := fs1, warnings := 0, downloads := 0 } := by
      simp only [download_pretrained_from_url, hmk, hexp, htgt]
    rw [h1]
    exact ⟨⟨_, rfl⟩, rfl⟩

/-- Witness for C5: the target path is a directory. -/
theorem download_target_not_regular_file_witness :
    (∃ msg, (download_pretrained_from_url (fun _ => "x") (fun _ => [1])
      "http://host/m.pt" "c" [("c/m.pt", FSNode.dir)]).result =
      Except.error msg) ∧
    (download_pretrained_from_url (fun _ => "x") (fun _ => [1])
      "http://host/m.pt" "c" [("c/m.pt", FSNode.dir)]).downloads = 0 :=
  download_target_not_regular_file (fun _ => "x") (fun _ => [1])
    "http://host/m.pt" "c" [("c/m.pt", FSNode.dir)] (Or.inl (by decide))
    (by decide)

/-! ## Dict-building lemmas -/

theorem dictInsert_of_not_mem {β : Type} (d : List (String × β)) (k : String)
    (v : β) (h : ∀ p ∈ d, p.1 ≠ k) : dictInsert d k v = d ++ [(k, v)] := by
  have hany : ¬ (d.any (fun p => p.1 == k) = true) := by
    rw [List.any_eq_true]
    rintro ⟨p, hp, hpk⟩
    exact h p hp (beq_iff_eq.mp hpk)
  unfold dictInsert
  rw [if_neg hany]

theorem foldl_dictInsert {β : Type} (l : List (String × β)) :
    ∀ d : List (String × β), (l.map Prod.fst).Nodup →
    (∀ p ∈ l, ∀ q ∈ d, q.1 ≠ p.1) →
    l.foldl (fun d kv => dictInsert d kv.1 kv.2) d = d ++ l := by
  induction l with
  | nil => intro d _ _; simp
  | cons kv t ih =>
    intro d hnd hdisj
    rw [List.map_cons, List.nodup_cons] at hnd
    rw [List.foldl_cons,
      dictInsert_of_not_mem d kv.1 kv.2
        (fun q hq => hdisj kv (List.mem_cons_self kv t) q hq),
      ih (d ++ [(kv.1, kv.2)]) hnd.2 ?_]
    · simp
    · intro p hp q hq
      rcases List.mem_append.mp hq with hq | hq
      · exact hdisj p (List.mem_cons_of_mem kv hp) q hq
      · have hq1 : q = (kv.1, kv.2) := by simpa using hq
        rw [hq1]
        intro hcontra
        exact hnd.1 (hcontra ▸ List.mem_map_of_mem Prod.fst hp)

theorem pyDictOfList_of_nodup {β : Type} (l : List (String × β))
    (hnd : (l.map Prod.fst).Nodup) : pyDictOfList l = l := by
  unfold pyDictOfList
  rw [foldl_dictInsert l [] hnd (by simp)]
  rfl

/-! ## C6 -/

/-- C6 counterexample: on a checkpoint whose first key carries the
`module.` prefix but whose second key `b` does not, `load_state_dict` drops
the first 7 characters of *every* key, mangling `b` into the empty string —
the claimed output (keys `a` and `b`) is not produced and key `b` is gone. -/
theorem load_state_dict_mixed_keys_cex :
    load_state_dict (PyVal.dict [("module.a", PyVal.tensor (0 : Nat)),
        ("b", PyVal.tensor 1)]) =
      some [("a", PyVal.tensor 0), ("", PyVal.tensor 1)] ∧
    ∀ l, load_state_dict (PyVal.dict [("module.a", PyVal.tensor (0 : Nat)),
        ("b", PyVal.tensor 1)]) = some l → l.lookup "b" = none := by
  constructor
  · rfl
  · intro l hl
    rw [show load_state_dict (PyVal.dict [("module.a", PyVal.tensor (0 : Nat)),
        ("b", PyVal.tensor 1)]) =
        some [("a", PyVal.tensor 0), ("", PyVal.tensor 1)] from rfl] at hl
    cases hl
    rfl

/-- C6 amended: `load_state_dict` auto-detects a wrapped `state_dict` key;
it then drops the first 7 characters of every key exactly when the *first*
key starts with `module`.  When the first key does not start with `module`
the mapping is returned unchanged; when every key carries the full
`module.` prefix (and the stripped keys stay distinct), the result is
exactly the mapping with that prefix removed from every key. -/
theorem load_state_dict_amended {α : Type} (ck : PyVal α)
    (es : List (String × PyVal α))
    (hsel : selectedStateDict ck = PyVal.dict es) :
    (∀ k0 v0 rest, es = (k0, v0) :: rest →
      strStartsWith k0 "module" = false → load_state_dict ck = some es) ∧
    (es ≠ [] →
      (∀ kv ∈ es, strStartsWith kv.1 "module." = true) →
      (es.map (fun kv => (strDrop kv.1 7, kv.2)) |>.map Prod.fst).Nodup →
      load_state_dict ck =
        some (es.map (fun kv => (strDrop kv.1 7, kv.2))) ∧
      ∀ kv ∈ es, "module." ++ strDrop kv.1 7 = kv.1) := by
  constructor
  · intro k0 v0 rest hes hk0
    rw [hes] at hsel ⊢
    simp only [load_state_dict, hsel, hk0]
    rfl
  · intro hne hall hnd
    obtain ⟨⟨k0, v0⟩, rest, hes⟩ : ∃ kv rest, es = kv :: rest := by
      cases es with
      | nil => exact absurd rfl hne
      | cons a t => exact ⟨a, t, rfl⟩
    have hpre : ∀ kv ∈ es, ("module.".data).IsPrefix kv.1.data := by
      intro kv hkv
      exact List.isPrefixOf_iff_prefix.mp (hall kv hkv)
    have hk0 : strStartsWith k0 "module" = true := by
      have h1 := hpre (k0, v0) (hes ▸ List.mem_cons_self _ _)
      have h2 : ("module".data).IsPrefix ("module.".data) := by decide
      exact List.isPrefixOf_iff_prefix.mpr (h2.trans h1)
    constructor
    · rw [hes] at hsel ⊢
      simp only [load_state_dict, hsel, hk0]
      rw [if_pos trivial]
      rw [pyDictOfList_of_nodup _ (by rw [← hes]; exact hnd)]
    · intro kv hkv
      obtain ⟨t, ht⟩ := hpre kv hkv
      have hd : kv.1.data = "module.".data ++ t := ht.symm
      have hdrop : strDrop kv.1 7 = ⟨t⟩ := by
        unfold strDrop
        rw [hd, show (7 : Nat) = ("module.".data).length from rfl,
          List.drop_left]
      rw [hdrop]
      show String.mk ("module.".data ++ t) = kv.1
      rw [← hd]

/-- Witness for the amended C6: a wrapped checkpoint whose single key is
`module.w` loads as `w`. -/
theorem load_state_dict_amended_witness :
    load_state_dict (PyVal.dict [("state_dict",
        PyVal.dict [("module.w", PyVal.tensor (0 : Nat))])]) =
      some [("w", PyVal.tensor 0)] := by
  have h := (load_state_dict_amended
    (PyVal.dict [("state_dict", PyVal.dict [("module.w", PyVal.tensor (0 : Nat))])])
    [("module.w", PyVal.tensor 0)] rfl).2 (by simp) (by decide) (by decide)
  exact h.1

/-! ## C7 -/

/-- C7 counterexample: with the sentinel present, renaming `transformer.x`
to `text.transformer.x` collides with the already-present key
`text.transformer.x`; the later assignment overwrites the earlier one, so a
key/value pair is dropped (result has 2 entries instead of 3), refuting
"no key is dropped". -/
theorem convert_text_sd_collision_cex :
    convert_to_custom_text_state_dict
      [("text_projection", (0 : Nat)), ("transformer.x", 1),
        ("text.transformer.x", 2)] =
      [("text.text_projection", 0), ("text.transformer.x", 2)] ∧
    (convert_to_custom_text_state_dict
      [("text_projection", (0 : Nat)), ("transformer.x", 1),
        ("text.transformer.x", 2)]).length = 2 := by
  exact ⟨rfl, rfl⟩

/-- C7 amended: `convert_to_custom_text_state_dict` is the identity when
the sentinel key `text_projection` is absent; when it is present and the
renamed key list has no collisions, the result is exactly the input with
`text.` prepended to every key matching one of the five legacy key spaces
(every other key and all values unchanged, no key dropped). -/
theorem convert_text_sd_amended {β : Type} (sd : List (String × β)) :
    ((sd.lookup "text_projection") = none →
      convert_to_custom_text_state_dict sd = sd) ∧
    ((sd.lookup "text_projection").isSome = true →
      ((sd.map (fun kv =>
          if ctPrefixMatch kv.1 then ("text." ++ kv.1, kv.2) else kv)).map
        Prod.fst).Nodup →
      convert_to_custom_text_state_dict sd =
        sd.map (fun kv =>
          if ctPrefixMatch kv.1 then ("text." ++ kv.1, kv.2) else kv)) := by
  constructor
  · intro h
    unfold convert_to_custom_text_state_dict
    rw [if_neg (by simp [h])]
  · intro hs hnd
    unfold convert_to_custom_text_state_dict
    rw [if_pos hs]
    exact pyDictOfList_of_nodup _ hnd

/-- Witness for the amended C7: no sentinel key, identity. -/
theorem convert_text_sd_amended_witness :
    convert_to_custom_text_state_dict [("positional_embedding", (0 : Nat))] =
      [("positional_embedding", 0)] :=
  (convert_text_sd_amended [("positional_embedding", (0 : Nat))]).1 rfl

/-! ## C8 -/

theorem mul_add_div_eq (i d D : Nat) (hd : d < D) : (i * D + d) / D = i := by
  rw [Nat.add_comm, Nat.add_mul_div_right _ _ (by omega : 0 < D),
    Nat.div_eq_of_lt hd]
  omega

theorem mul_add_mod_eq (i d D : Nat) (hd : d < D) : (i * D + d) % D = d := by
  rw [Nat.add_comm, Nat.add_mul_mod_self_right, Nat.mod_eq_of_lt hd]

/-- C8: `resize_pos_embed` stores back a `positional_embedding` of exactly
the target width `W`; each output row `i` is the input row `⌊i·L/W⌋`
(nearest-neighbour 1-D interpolation), so values at matching relative
positions are preserved exactly, and when the stored width already equals
the target the stored embedding is unchanged. -/
theorem resize_pos_embed_spec {α : Type} [Inhabited α]
    (sd : List (String × Tensor α)) (pe : Tensor α) (L D W : Nat)
    (hlk : sd.lookup "positional_embedding" = some pe)
    (hsh : pe.shape = [L, D]) (hdl : pe.data.length = L * D)
    (hL : 1 ≤ L) (hD : 2 ≤ D) (hW : 2 ≤ W) :
    ∃ pe', resize_pos_embed sd W =
        some (dictInsert sd "positional_embedding" pe') ∧
      pe'.shape = [W, D] ∧ pe'.data.length = W * D ∧
      (∀ i d, i < W → d < D →
        pe'.data.getD (i * D + d) default =
          pe.data.getD (i * L / W * D + d) default) ∧
      (L = W → pe' = pe) := by
  obtain ⟨sh, dat⟩ := pe
  obtain rfl : sh = [L, D] := hsh
  simp only at hdl
  have hL0 : 0 < L := hL
  have hW0 : 0 < W := by omega
  have hD0 : 0 < D := by omega
  have h1 : (Tensor.mk [1, L, D] dat).permute3 0 2 1 =
      some (Tensor.mk [1, D, L] ((List.range (1 * D * L)).map (fun o =>
        dat.getD (o / (D * L) * (L * D) + o % L * D + o / L % D) default))) :=
    rfl
  have h2 : interpolateNearest (Tensor.mk [1, D, L]
      ((List.range (1 * D * L)).map (fun o =>
        dat.getD (o / (D * L) * (L * D) + o % L * D + o / L % D) default))) W =
      some (Tensor.mk [1, D, W] ((List.range (1 * D * W)).map (fun i =>
        ((List.range (1 * D * L)).map (fun o =>
          dat.getD (o / (D * L) * (L * D) + o % L * D + o / L % D) default)).getD
            (i / (D * W) * (D * L) + i / W % D * L + i % W * L / W)
          default))) := by
    simp only [interpolateNearest]
    rw [if_pos ⟨hL0, hW0⟩]
  have h3 : (Tensor.mk [1, D, W] ((List.range (1 * D * W)).map (fun i =>
      ((List.range (1 * D * L)).map (fun o =>
        dat.getD (o / (D * L) * (L * D) + o % L * D + o / L % D) default)).getD
          (i / (D * W) * (D * L) + i / W % D * L + i % W * L / W)
        default))).permute3 0 2 1 =
      some (Tensor.mk [1, W, D] ((List.range (1 * W * D)).map (fun o =>
        ((List.range (1 * D * W)).map (fun i =>
          ((List.range (1 * D * L)).map (fun o =>
            dat.getD (o / (D * L) * (L * D) + o % L * D + o / L % D)
              default)).getD
              (i / (D * W) * (D * L) + i / W % D * L + i % W * L / W)
            default)).getD (o / (W * D) * (D * W) + o % D * W + o / D % W)
          default))) := rfl
  have hW1 : (W != 1) = true := by
    simp only [bne_iff_ne, ne_eq]
    omega
  have hD1 : (D != 1) = true := by
    simp only [bne_iff_ne, ne_eq]
    omega
  have hsq : (Tensor.mk [1, W, D] ((List.range (1 * W * D)).map (fun o =>
      ((List.range (1 * D * W)).map (fun i =>
        ((List.range (1 * D * L)).map (fun o =>
          dat.getD (o / (D * L) * (L * D) + o % L * D + o / L % D)
            default)).getD
            (i / (D * W) * (D * L) + i / W % D * L + i % W * L / W)
          default)).getD (o / (W * D) * (D * W) + o % D * W + o / D % W)
        default))).squeeze =
      Tensor.mk [W, D] ((List.range (1 * W * D)).map (fun o =>
        ((List.range (1 * D * W)).map (fun i =>
          ((List.range (1 * D * L)).map (fun o =>
            dat.getD (o / (D * L) * (L * D) + o % L * D + o / L % D)
              default)).getD
              (i / (D * W) * (D * L) + i / W % D * L + i % W * L / W)
            default)).getD (o / (W * D) * (D * W) + o % D * W + o / D % W)
          default)) := by
    unfold Tensor.squeeze
    simp only [List.filter_cons, List.filter_nil, hW1, hD1]
    rfl
  have hmain : resize_pos_embed sd W =
      some (dictInsert sd "positional_embedding"
        (Tensor.mk [W, D] ((List.range (1 * W * D)).map (fun o =>
          ((List.range (1 * D * W)).map (fun i =>
            ((List.range (1 * D * L)).map (fun o =>
              dat.getD (o / (D * L) * (L * D) + o % L * D + o / L % D)
                default)).getD
                (i / (D * W) * (D * L) + i / W % D * L + i % W * L / W)
              default)).getD (o / (W * D) * (D * W) + o % D * W + o / D % W)
            default)))) := by
    simp only [resize_pos_embed, hlk, Option.bind_eq_bind, Option.some_bind,
      Tensor.unsqueeze0, h1, h2, h3, hsq, Option.pure_def]
  have hpt : ∀ i d, i < W → d < D →
      ((List.range (1 * W * D)).map (fun o =>
        ((List.range (1 * D * W)).map (fun i =>
          ((List.range (1 * D * L)).map (fun o =>
            dat.getD (o / (D * L) * (L * D) + o % L * D + o / L % D)
              default)).getD
              (i / (D * W) * (D * L) + i / W % D * L + i % W * L / W)
            default)).getD (o / (W * D) * (D * W) + o % D * W + o / D % W)
        default)).getD (i * D + d) default =
      dat.getD (i * L / W * D + d) default := by
    intro i d hi hd
    have hb1 : i * D + d < W * D := by
      have ha : (i + 1) * D = i * D + D := by ring
      have hc : (i + 1) * D ≤ W * D :=
        Nat.mul_le_mul (Nat.succ_le_of_lt hi) (Nat.le_refl D)
      omega
    have hm1 : i * D + d < 1 * W * D := by simpa using hb1
    rw [getD_range_map _ _ _ _ hm1]
    have e1 : (i * D + d) / (W * D) = 0 := Nat.div_eq_of_lt hb1
    have e2 : (i * D + d) % D = d := mul_add_mod_eq i d D hd
    have e3 : (i * D + d) / D = i := mul_add_div_eq i d D hd
    rw [e1, e2, e3, Nat.mod_eq_of_lt hi, Nat.zero_mul, Nat.zero_add]
    have hb2 : d * W + i < D * W := by
      have ha : (d + 1) * W = d * W + W := by ring
      have hc : (d + 1) * W ≤ D * W :=
        Nat.mul_le_mul (Nat.succ_le_of_lt hd) (Nat.le_refl W)
      omega
    have hm2 : d * W + i < 1 * D * W := by simpa using hb2
    rw [getD_range_map _ _ _ _ hm2]
    have e4 : (d * W + i) / (D * W) = 0 := Nat.div_eq_of_lt hb2
    have e5 : (d * W + i) / W = d := mul_add_div_eq d i W hi
    have e6 : (d * W + i) % W = i := mul_add_mod_eq d i W hi
    rw [e4, e5, e6, Nat.mod_eq_of_lt hd, Nat.zero_mul, Nat.zero_add]
    have hq : i * L / W < L := by
      rw [Nat.div_lt_iff_lt_mul hW0, Nat.mul_comm L W]
      exact mul_lt_mul_of_pos_right hi hL0
    have hb3 : d * L + i * L / W < D * L := by
      have ha : (d + 1) * L = d * L + L := by ring
      have hc : (d + 1) * L ≤ D * L :=
        Nat.mul_le_mul (Nat.succ_le_of_lt hd) (Nat.le_refl L)
      omega
    have hm3 : d * L + i * L / W < 1 * D * L := by simpa using hb3
    rw [getD_range_map _ _ _ _ hm3]
    have e7 : (d * L + i * L / W) / (D * L) = 0 := Nat.div_eq_of_lt hb3
    have e8 : (d * L + i * L / W) % L = i * L / W :=
      mul_add_mod_eq d (i * L / W) L hq
    have e9 : (d * L + i * L / W) / L = d :=
      mul_add_div_eq d (i * L / W) L hq
    rw [e7, e8, e9, Nat.mod_eq_of_lt hd, Nat.zero_mul, Nat.zero_add]
  refine ⟨_, hmain, rfl, by simp, hpt, ?_⟩
  intro hLW
  subst hLW
  have hlen : ((List.range (1 * L * D)).map (fun o =>
      ((List.range (1 * D * L)).map (fun i =>
        ((List.range (1 * D * L)).map (fun o =>
          dat.getD (o / (D * L) * (L * D) + o % L * D + o / L % D)
            default)).getD
            (i / (D * L) * (D * L) + i / L % D * L + i % L * L / L)
          default)).getD (o / (L * D) * (D * L) + o % D * L + o / D % L)
        default)).length = dat.length := by
    simp [hdl]
  refine congrArg (Tensor.mk [L, D]) (List.ext_getElem hlen ?_)
  intro n h1n h2n
  have hn : n < L * D := by
    rw [hdl] at h2n
    exact h2n
  have hiD : n / D < L := by
    rw [Nat.div_lt_iff_lt_mul hD0]
    calc n < L * D := hn
    _ = D * L := Nat.mul_comm L D
    _ ≤ L * D := by rw [Nat.mul_comm]
  have hdD : n % D < D := Nat.mod_lt n hD0
  have hdecomp : n = n / D * D + n % D := by
    rw [Nat.mul_comm]
    exact (Nat.div_add_mod n D).symm
  have := hpt (n / D) (n % D) hiD hdD
  rw [Nat.mul_div_cancel (n / D) ?_] at this
  · rw [← List.getD_eq_getElem _ default h1n, ← List.getD_eq_getElem _ default h2n]
    conv_lhs => rw [hdecomp]
    rw [this, ← hdecomp]
  · exact hL0

/-- Witness for C8: a `(2, 2)` stored embedding resized to width 2. -/
theorem resize_pos_embed_spec_witness :
    ∃ pe', resize_pos_embed
        [("positional_embedding", Tensor.mk [2, 2] [1, 2, 3, 4])] 2 =
        some (dictInsert
          [("positional_embedding", Tensor.mk [2, 2] ([1, 2, 3, 4] : List Nat))]
          "positional_embedding" pe') ∧
      pe'.shape = [2, 2] ∧ pe'.data.length = 2 * 2 ∧
      (∀ i d, i < 2 → d < 2 →
        pe'.data.getD (i * 2 + d) default =
          (Tensor.mk [2, 2] ([1, 2, 3, 4] : List Nat)).data.getD
            (i * 2 / 2 * 2 + d) default) ∧
      (2 = 2 → pe' = Tensor.mk [2, 2] [1, 2, 3, 4]) :=
  resize_pos_embed_spec [("positional_embedding", Tensor.mk [2, 2] [1, 2, 3, 4])]
    (Tensor.mk [2, 2] [1, 2, 3, 4]) 2 2 2 rfl rfl rfl (by decide) (by decide)
    (by decide)
